import Mathlib

/-!
Verification development for the meeting-bot transcript / analytics pipeline.

The TypeScript sources are shallowly embedded:
* JavaScript millisecond timestamps and durations are `Int` (they are exact
  integers in every reachable state); `Date.now()` becomes an explicit `now`
  argument threaded into each operation that reads the clock.
* IEEE-754 doubles that never leave pure record fields (confidence values,
  sentiment scores) are modelled as exact rationals `Rat`; no claim performs
  float-sensitive arithmetic on them.
* A JavaScript `Map` is an insertion-ordered association list: `Map.get` is
  `alFind`, `Map.set` is `alSet` (update in place if the key is present,
  append otherwise), `Map.values()` is `List.map Prod.snd`.
* Fallible operations (`throw`) return `Except String _`.
-/

namespace MeetingBot

/-- Insertion-ordered association-list lookup, modelling `Map.get`. -/
def alFind {α β : Type} [DecidableEq α] (k : α) : List (α × β) → Option β
  | [] => none
  | (k', v') :: rest => if k' = k then some v' else alFind k rest

/-- Insertion-ordered association-list write, modelling `Map.set`:
overwrite in place when the key exists, append otherwise. -/
def alSet {α β : Type} [DecidableEq α] (k : α) (v : β) : List (α × β) → List (α × β)
  | [] => [(k, v)]
  | (k', v') :: rest => if k' = k then (k, v) :: rest else (k', v') :: alSet k v rest

/-- One recognized word with timing, from `types.d.ts` `WordSegment`. -/
structure WordSegment where
  word : String
  startTime : Int
  endTime : Int
  confidence : Rat
  speaker : Option Int
deriving DecidableEq

/-- One reconciled span of transcribed speech, from `types.d.ts`
`TranscriptSegment` (the `words?` field is optional there, hence `Option`). -/
structure TranscriptSegment where
  speaker : String
  speakerIndex : Int
  text : String
  startTime : Int
  endTime : Int
  confidence : Rat
  words : Option (List WordSegment)
deriving DecidableEq

/-- Sentiment label from `types.d.ts` `SentimentScore.overall`. -/
inductive SentimentLabel where
  | positive
  | neutral
  | negative
deriving DecidableEq

/-- Emotion breakdown from `types.d.ts` `SentimentScore.emotions`. -/
structure EmotionScores where
  joy : Rat
  sadness : Rat
  anger : Rat
  fear : Rat
deriving DecidableEq

/-- Sentiment record from `types.d.ts` `SentimentScore`. -/
structure SentimentScore where
  overall : SentimentLabel
  score : Rat
  emotions : EmotionScores
deriving DecidableEq

/-- Per-participant analytics record, from `types.d.ts` `ParticipantData`. -/
structure ParticipantData where
  userId : String
  userName : String
  joinTimestamp : Int
  leaveTimestamp : Option Int
  transcript : List TranscriptSegment
  totalTimeAttended : Int
  totalTimeSpoken : Int
  sentiment : SentimentScore
deriving DecidableEq

/-- Session aggregate, from `types.d.ts` `MeetingSession`. -/
structure MeetingSession where
  id : String
  url : String
  startTime : Int
  endTime : Option Int
  participants : List ParticipantData
  totalTranscript : List TranscriptSegment
deriving DecidableEq

/-- Mutable fields of `AnalyticsService` (`analytics.ts` lines 10-13). -/
structure AnalyticsState where
  participants : List (String × ParticipantData)
  currentSession : Option MeetingSession
  speakerMapping : List (Int × String)
deriving DecidableEq

/-- Field initializers of a fresh `AnalyticsService` (also `reset()`). -/
def initState : AnalyticsState :=
  { participants := [], currentSession := none, speakerMapping := [] }

/-- The neutral sentiment every new participant starts with
(`analytics.ts` lines 56-65). -/
def defaultSentiment : SentimentScore :=
  { overall := SentimentLabel.neutral
    score := 0
    emotions := { joy := 0, sadness := 0, anger := 0, fear := 0 } }

/-- Model of `AnalyticsService.startSession` (`analytics.ts` lines 15-24). -/
def startSession (now : Int) (sessionId meetingUrl : String) (s : AnalyticsState) :
    AnalyticsState :=
  { s with currentSession := some {
      id := sessionId, url := meetingUrl, startTime := now, endTime := none,
      participants := [], totalTranscript := [] } }

/-- The body of the `forEach` in `AnalyticsService.endSession`
(`analytics.ts` lines 32-37): participants without a `leaveTimestamp` are
stamped with the session end time; already-closed ones are untouched. -/
def closeParticipant (endTime : Int) (p : ParticipantData) : ParticipantData :=
  match p.leaveTimestamp with
  | some _ => p
  | none =>
    { p with leaveTimestamp := some endTime
             totalTimeAttended := endTime - p.joinTimestamp }

/-- Model of `AnalyticsService.endSession` (`analytics.ts` lines 26-41).  The session's
`participants` array holds references to the very records stored in the
`participants` map, so the `forEach` mutation is visible through both: the
model applies `closeParticipant` to the map and snapshots its values. -/
def endSession (now : Int) (s : AnalyticsState) : AnalyticsState :=
  match s.currentSession with
  | none => s
  | some sess =>
    let closed := s.participants.map (fun kp => (kp.1, closeParticipant now kp.2))
    { s with participants := closed
             currentSession := some
               { sess with endTime := some now
                           participants := closed.map (fun kp => kp.2) } }

/-- The fresh record built in `AnalyticsService.addParticipant`
(`analytics.ts` lines 48-66). -/
def freshParticipant (now : Int) (userId userName : String) : ParticipantData :=
  { userId := userId, userName := userName, joinTimestamp := now
    leaveTimestamp := none, transcript := [], totalTimeAttended := 0
    totalTimeSpoken := 0, sentiment := defaultSentiment }

/-- Model of `AnalyticsService.addParticipant` (`analytics.ts` lines 43-73). -/
def addParticipant (now : Int) (userId userName : String) (speakerIndex : Option Int)
    (s : AnalyticsState) : AnalyticsState :=
  if (alFind userId s.participants).isSome then s
  else
    let s1 : AnalyticsState :=
      { s with participants := alSet userId (freshParticipant now userId userName) s.participants }
    match speakerIndex with
    | some i => { s1 with speakerMapping := alSet i userId s1.speakerMapping }
    | none => s1

/-- Model of `AnalyticsService.mapSpeakerToParticipant` (`analytics.ts` lines 75-77). -/
def mapSpeakerToParticipant (speakerIndex : Int) (userId : String)
    (s : AnalyticsState) : AnalyticsState :=
  { s with speakerMapping := alSet speakerIndex userId s.speakerMapping }

/-- The placeholder identity `unknown_<speakerIndex>` (`analytics.ts` line 81). -/
def unknownIdOf (speakerIndex : Int) : String :=
  "unknown_" ++ toString speakerIndex

/-- The userId resolution `this.speakerMapping.get(i) || unknown_i` of
`analytics.ts` line 81; `||` falls through on the falsy empty string. -/
def resolveUserId (s : AnalyticsState) (speakerIndex : Int) : String :=
  match alFind speakerIndex s.speakerMapping with
  | some uid => if uid = "" then unknownIdOf speakerIndex else uid
  | none => unknownIdOf speakerIndex

/-- Model of `AnalyticsService.addTranscriptSegment` (`analytics.ts` lines 79-98):
resolve the speaker to a participant (creating an `unknown_<i>` record on
first sight), append the segment to that participant's transcript, add its
duration to `totalTimeSpoken`, and, only when a session is live, append the
segment to the session-wide `totalTranscript`.  Note the method always
appends and increments; it never replaces an earlier revision. -/
def addTranscriptSegment (now : Int) (seg : TranscriptSegment) (s : AnalyticsState) :
    AnalyticsState :=
  let userId := resolveUserId s seg.speakerIndex
  let s1 :=
    if (alFind userId s.participants).isSome then s
    else addParticipant now userId seg.speaker (some seg.speakerIndex) s
  let s2 :=
    match alFind userId s1.participants with
    | some p =>
      let p' : ParticipantData :=
        { p with transcript := p.transcript ++ [seg],
                 totalTimeSpoken := p.totalTimeSpoken + (seg.endTime - seg.startTime) }
      { s1 with participants := alSet userId p' s1.participants }
    | none => s1
  match s2.currentSession with
  | none => s2
  | some sess =>
    let sess' := { sess with totalTranscript := sess.totalTranscript ++ [seg] }
    { s2 with currentSession := some sess' }

/-- Model of `AnalyticsService.updateParticipantSentiment` (`analytics.ts` lines 100-105). -/
def updateParticipantSentiment (userId : String) (sentiment : SentimentScore)
    (s : AnalyticsState) : AnalyticsState :=
  match alFind userId s.participants with
  | some p => { s with participants := alSet userId { p with sentiment := sentiment } s.participants }
  | none => s

/-- Character-level model of `String.prototype.split` with a predicate
separator.  For a single-character separator (`split(' ')`) this is exact.
For `split(/\s+/)` it differs only by emitting an empty token between
consecutive separators, which every use below discards or never meets. -/
def splitChars (p : Char → Bool) : List Char → List (List Char)
  | [] => [[]]
  | c :: cs =>
    match splitChars p cs with
    | t :: ts => if p c then [] :: t :: ts else (c :: t) :: ts
    | [] => [[c]]

/-- Model of `String.prototype.trim`: drop leading and trailing whitespace. -/
def trimChars (cs : List Char) : List Char :=
  ((cs.dropWhile Char.isWhitespace).reverse.dropWhile Char.isWhitespace).reverse

/-- The `countWords` helper of `AnalyticsService.exportAsCSV`
(`analytics.ts` lines 249-255): split on whitespace runs, trim each token,
drop empty tokens, count the remainder. -/
def countWords (text : String) : Nat :=
  (((splitChars Char.isWhitespace text.toList).map trimChars).filter
    (fun w => !w.isEmpty)).length

/-- The per-segment word count used by `AnalyticsService.getSessionSummary`
(`analytics.ts` line 167): `seg.text.split(' ').length`, i.e. splitting on
single spaces only and counting empty tokens as words. -/
def summarySegWords (text : String) : Nat :=
  (splitChars (fun c => c == ' ') text.toList).length

/-- Model of `String.prototype.includes`: substring containment. -/
def charsContains (needle : List Char) : List Char → Bool
  | [] => needle.isEmpty
  | c :: rest => needle.isPrefixOf (c :: rest) || charsContains needle rest

/-- Positive lexicon of `AnalyticsService.analyzeSentiment` (`analytics.ts` line 109). -/
def positiveWords : List String :=
  ["good", "great", "excellent", "amazing", "fantastic", "wonderful", "perfect",
   "love", "like", "happy", "pleased"]

/-- Negative lexicon of `AnalyticsService.analyzeSentiment` (`analytics.ts` line 110). -/
def negativeWords : List String :=
  ["bad", "terrible", "awful", "horrible", "hate", "dislike", "angry",
   "frustrated", "disappointed", "sad"]

/-- Model of `AnalyticsService.analyzeSentiment` (`analytics.ts` lines 107-141).
JavaScript double arithmetic (the score and the 0.2 / 0.3 thresholds) is
modelled in exact rationals. -/
def analyzeSentiment (text : String) : SentimentScore :=
  let words := splitChars Char.isWhitespace (text.toList.map Char.toLower)
  let positiveCount :=
    (words.filter (fun w => positiveWords.any (fun pos => charsContains pos.toList w))).length
  let negativeCount :=
    (words.filter (fun w => negativeWords.any (fun neg => charsContains neg.toList w))).length
  let totalSentimentWords := positiveCount + negativeCount
  let score : Rat :=
    if totalSentimentWords > 0 then
      ((positiveCount : Rat) - (negativeCount : Rat)) / (totalSentimentWords : Rat)
    else 0
  let overall : SentimentLabel :=
    if totalSentimentWords > 0 then
      if score > (2 : Rat) / 10 then SentimentLabel.positive
      else if score < -((2 : Rat) / 10) then SentimentLabel.negative
      else SentimentLabel.neutral
    else SentimentLabel.neutral
  { overall := overall
    score := score
    emotions :=
      { joy := max 0 score
        sadness := max 0 (-score)
        anger := if negativeCount > 2 then (3 : Rat) / 10 else 0
        fear := 0 } }

/-- Sentiment distribution counts of `getSessionSummary` (`analytics.ts` lines 171-177). -/
structure SentimentDistribution where
  positive : Nat
  neutral : Nat
  negative : Nat
deriving DecidableEq

/-- Return value of `AnalyticsService.getSessionSummary` (`analytics.ts` lines 159-165). -/
structure SessionSummary where
  totalParticipants : Nat
  totalDuration : Int
  totalWords : Nat
  averageParticipation : Rat
  sentimentDistribution : SentimentDistribution
deriving DecidableEq

/-- Model of `AnalyticsService.getSessionSummary` (`analytics.ts` lines 159-186);
`Date.now()` is the explicit `now`, real division is exact in `Rat`. -/
def getSessionSummary (now : Int) (s : AnalyticsState) : SessionSummary :=
  let participants := s.participants.map (fun kp => kp.2)
  let totalWords := participants.foldl
    (fun sum p => sum + p.transcript.foldl (fun ws seg => ws + summarySegWords seg.text) 0) 0
  let totalSpokenTime : Int := participants.foldl (fun sum p => sum + p.totalTimeSpoken) 0
  let totalSessionTime : Int :=
    match s.currentSession with
    | some sess => (sess.endTime.getD now) - sess.startTime
    | none => 0
  let dist := participants.foldl
    (fun acc p =>
      match p.sentiment.overall with
      | SentimentLabel.positive => { acc with positive := acc.positive + 1 }
      | SentimentLabel.neutral => { acc with neutral := acc.neutral + 1 }
      | SentimentLabel.negative => { acc with negative := acc.negative + 1 })
    ({ positive := 0, neutral := 0, negative := 0 } : SentimentDistribution)
  { totalParticipants := participants.length
    totalDuration := totalSessionTime
    totalWords := totalWords
    averageParticipation :=
      if totalSessionTime > 0 then ((totalSpokenTime : Rat) / (totalSessionTime : Rat)) * 100
      else 0
    sentimentDistribution := dist }

/-- Export format choices, from `AnalyticsExportOptions.format` (`analytics.ts` line 4). -/
inductive ExportFormat where
  | json
  | csv
  | xlsx
deriving DecidableEq

/-- Model of `AnalyticsExportOptions` (`analytics.ts` lines 3-8). -/
structure AnalyticsExportOptions where
  format : ExportFormat
  includeTranscript : Bool
  includeSentiment : Bool
  includeWordTiming : Bool
deriving DecidableEq

/-- One transcript entry of `prepareExportData` (`analytics.ts` lines 222-229);
the `words` key is kept only when `includeWordTiming` is set. -/
structure ExportedSegment where
  speaker : String
  text : String
  startTime : Int
  endTime : Int
  confidence : Rat
  words : Option (List WordSegment)
deriving DecidableEq

/-- One participant entry of `prepareExportData` (`analytics.ts` lines 213-231);
`sentiment` and `transcript` are present only when their inclusion flag is set. -/
structure ExportedParticipant where
  userId : String
  userName : String
  joinTimestamp : Int
  leaveTimestamp : Option Int
  totalTimeAttended : Int
  totalTimeSpoken : Int
  sentiment : Option SentimentScore
  transcript : Option (List ExportedSegment)
deriving DecidableEq

/-- The record assembled by `AnalyticsService.prepareExportData`
(`analytics.ts` lines 207-234). -/
structure ExportedData where
  session : Option MeetingSession
  summary : SessionSummary
  participants : List ExportedParticipant
  exportTimestamp : Int
deriving DecidableEq

/-- The per-segment projection inside `prepareExportData` (`analytics.ts` lines 222-229). -/
def exportSegment (o : AnalyticsExportOptions) (seg : TranscriptSegment) : ExportedSegment :=
  { speaker := seg.speaker, text := seg.text, startTime := seg.startTime
    endTime := seg.endTime, confidence := seg.confidence
    words := if o.includeWordTiming then seg.words else none }

/-- Model of `AnalyticsService.prepareExportData` (`analytics.ts` lines 207-234). -/
def prepareExportData (now : Int) (o : AnalyticsExportOptions) (s : AnalyticsState) :
    ExportedData :=
  { session := s.currentSession
    summary := getSessionSummary now s
    participants := (s.participants.map (fun kp => kp.2)).map (fun p =>
      { userId := p.userId, userName := p.userName, joinTimestamp := p.joinTimestamp
        leaveTimestamp := p.leaveTimestamp, totalTimeAttended := p.totalTimeAttended
        totalTimeSpoken := p.totalTimeSpoken
        sentiment := if o.includeSentiment then some p.sentiment else none
        transcript :=
          if o.includeTranscript then some (p.transcript.map (exportSegment o)) else none })
    exportTimestamp := now }

/-- The `wordsSpoken` cell of a CSV row (`analytics.ts` lines 276-279): sum of
`countWords` over the participant's exported transcript, 0 when the
transcript was not included. -/
def csvRowWords (ep : ExportedParticipant) : Nat :=
  match ep.transcript with
  | some segs => segs.foldl (fun sum seg => sum + countWords seg.text) 0
  | none => 0

/-- Successful export payloads.  The textual rendering (`JSON.stringify`,
CSV assembly with BOM and quote escaping) is injective formatting of the
prepared data and is abstracted to that data; the word-count cell of each CSV
row is exposed through `csvRowWords`. -/
inductive ExportResult where
  | jsonPayload (data : ExportedData)
  | csvPayload (data : ExportedData)
deriving DecidableEq

/-- Model of `AnalyticsService.exportData` (`analytics.ts` lines 188-205): prepare the
data, then dispatch on the format; the `xlsx` case throws before producing
any payload. -/
def exportData (now : Int) (o : AnalyticsExportOptions) (s : AnalyticsState) :
    Except String ExportResult :=
  let data := prepareExportData now o s
  match o.format with
  | ExportFormat.csv => Except.ok (ExportResult.csvPayload data)
  | ExportFormat.xlsx => Except.error "XLSX export not implemented. Use json or csv format."
  | ExportFormat.json => Except.ok (ExportResult.jsonPayload data)

/-- The blob/anchor artifact `downloadExport` produces on success. -/
structure DownloadArtifact where
  payload : ExportResult
  mimeType : String
  filename : String
deriving DecidableEq

/-- Model of `AnalyticsService.downloadExport` (`analytics.ts` lines 308-322):
`exportData` runs first, so a thrown export error propagates before any blob,
MIME type or filename is computed. -/
def downloadExport (now : Int) (filename : String) (o : AnalyticsExportOptions)
    (s : AnalyticsState) : Except String DownloadArtifact :=
  match exportData now o s with
  | Except.error e => Except.error e
  | Except.ok d =>
    Except.ok
      { payload := d
        mimeType := if o.format = ExportFormat.csv then "text/csv" else "application/json"
        filename := filename ++ (if o.format = ExportFormat.csv then ".csv" else ".json") }

/-- Model of `Array.prototype.findIndex`: index of the first element satisfying the
predicate, searching from the front of the array. -/
def findIndex {α : Type} (p : α → Bool) : List α → Option Nat
  | [] => none
  | a :: as => if p a then some 0 else (findIndex p as).map (fun i => i + 1)

/-- The merge predicate of `handleTranscriptUpdate` (`page.tsx` lines 384-387):
same `speakerIndex` and `Math.abs(s.startTime - segment.startTime) < 1000`. -/
def matchesSlot (existing incoming : TranscriptSegment) : Bool :=
  decide (existing.speakerIndex = incoming.speakerIndex) &&
  decide ((existing.startTime - incoming.startTime).natAbs < 1000)

/-- The `setTranscript` updater of `handleTranscriptUpdate`
(`page.tsx` lines 382-396): replace the first matching timeline slot in
place, otherwise append. -/
def reconcileTranscript (prev : List TranscriptSegment) (seg : TranscriptSegment) :
    List TranscriptSegment :=
  match findIndex (fun s0 => matchesSlot s0 seg) prev with
  | some i => prev.set i seg
  | none => prev ++ [seg]

/-- Index of the last element satisfying the predicate: the backward search
the specification describes, stated here for comparison with the code's
forward `findIndex`. -/
def findLastIndex {α : Type} (p : α → Bool) : List α → Option Nat
  | [] => none
  | a :: as =>
    match findLastIndex p as with
    | some i => some (i + 1)
    | none => if p a then some 0 else none

/-- Modelled from the spec: "search backward for an existing segment with the
same speakerIndex whose startTimeMs lies within a 1000 ms tolerance window" —
the reconciler the specification describes, replacing the last (most recent)
matching slot.  For comparison with `reconcileTranscript`. -/
def reconcileBackward (prev : List TranscriptSegment) (seg : TranscriptSegment) :
    List TranscriptSegment :=
  match findLastIndex (fun s0 => matchesSlot s0 seg) prev with
  | some i => prev.set i seg
  | none => prev ++ [seg]

/-- The state the `handleTranscriptUpdate` callback mutates: the React
`transcript` array and the analytics service. -/
structure PipelineState where
  transcript : List TranscriptSegment
  analytics : AnalyticsState
deriving DecidableEq

/-- Model of `handleTranscriptUpdate` (`page.tsx` lines 378-410): reconcile the segment
into the transcript array, feed it to the analytics service, and overwrite
the sentiment of the `unknown_<speakerIndex>` participant.  The bot-mention
check only appends to the UI response list and triggers speech; it never
writes transcript or analytics state and is not modelled. -/
def handleTranscriptUpdate (now : Int) (seg : TranscriptSegment) (st : PipelineState) :
    PipelineState :=
  let transcript := reconcileTranscript st.transcript seg
  let analytics := addTranscriptSegment now seg st.analytics
  let analytics :=
    updateParticipantSentiment (unknownIdOf seg.speakerIndex) (analyzeSentiment seg.text) analytics
  { transcript := transcript, analytics := analytics }

/-- Connection-relevant fields of `TranscriptionService`
(`transcription.ts` lines 15-17). -/
structure ConnState where
  isConnected : Bool
  reconnectAttempts : Nat
deriving DecidableEq

/-- What one run of the `onclose` handler does: the successor field state,
the delay of the reconnect it schedules (if any), and the error it delivers
to the error sink (if any). -/
structure CloseOutcome where
  state : ConnState
  reconnectDelayMs : Option Nat
  surfacedError : Option String
deriving DecidableEq

/-- Model of `maxReconnectAttempts` (`transcription.ts` line 17). -/
def maxReconnectAttempts : Nat := 3

/-- The `ws.onclose` handler (`transcription.ts` lines 77-88): clear
`isConnected`; when the close code is not 1000 and the retry counter is below
the maximum, schedule a reconnect after `2000 * reconnectAttempts`
milliseconds — the delay is computed from the counter before the increment
that happens when the timer fires — and otherwise do nothing: no reconnect is
scheduled and nothing is delivered to the error callback. -/
def onWebSocketClose (s : ConnState) (closeCode : Int) : CloseOutcome :=
  let s0 : ConnState := { s with isConnected := false }
  if closeCode ≠ 1000 ∧ s0.reconnectAttempts < maxReconnectAttempts then
    { state := { s0 with reconnectAttempts := s0.reconnectAttempts + 1 }
      reconnectDelayMs := some (2000 * s0.reconnectAttempts)
      surfacedError := none }
  else
    { state := s0, reconnectDelayMs := none, surfacedError := none }

/-- The `ws.onopen` handler (`transcription.ts` lines 46-50): mark connected
and reset the retry counter. -/
def onWebSocketOpen (s : ConnState) : ConnState :=
  { s with isConnected := true, reconnectAttempts := 0 }

/-- Fold a sequence of close events through the `onclose` handler, collecting
the scheduled reconnect delays. -/
def closeTrace (s : ConnState) : List Int → List (Option Nat) × ConnState
  | [] => ([], s)
  | c :: cs =>
    let r := onWebSocketClose s c
    let rest := closeTrace r.state cs
    (r.reconnectDelayMs :: rest.1, rest.2)

/-- The allow-list of `ElectronApp.isValidMeetingUrl` (`part_000` lines 165-171). -/
def validDomains : List String :=
  ["meet.google.com", "zoom.us", "teams.microsoft.com", "webex.com", "gotomeeting.com"]

/-- Model of `ElectronApp.isValidMeetingUrl` (`part_000` lines 162-177) after URL
parsing: `validDomains.some(domain => urlObj.hostname.includes(domain))` —
note `includes` is substring containment, not domain-suffix matching.  The
model takes the already-parsed hostname; an unparseable URL returns false in
the source and is outside this model. -/
def isValidMeetingUrl (hostname : String) : Bool :=
  validDomains.any (fun domain => charsContains domain.toList hostname.toList)

/-- Result of the `join-meeting` IPC handler. -/
inductive JoinOutcome where
  | success (webContentsId : Nat)
  | failure
deriving DecidableEq

/-- Observable effect of a join request: its result and whether a meeting
window was created. -/
structure JoinEffect where
  result : JoinOutcome
  meetingWindowCreated : Bool
deriving DecidableEq

/-- The `join-meeting` IPC handler (`part_000` lines 100-112): an invalid URL
throws before `createMeetingWindow`, the catch returns `{success: false}`;
window creation itself is desktop-shell glue and is abstracted as succeeding
with the fresh webContents id. -/
def joinMeeting (hostname : String) (newWebContentsId : Nat) : JoinEffect :=
  if isValidMeetingUrl hostname then
    { result := JoinOutcome.success newWebContentsId, meetingWindowCreated := true }
  else
    { result := JoinOutcome.failure, meetingWindowCreated := false }

/-- Whether the second character list ends with the first. -/
def hostEndsWith (suffix : List Char) : List Char → Bool
  | [] => suffix.isEmpty
  | c :: rest => (suffix == c :: rest) || hostEndsWith suffix rest

/-- Modelled from the spec: membership in "an allow-list of meeting-provider
domains" as the claim reads it — the host is exactly one of the provider
domains or a subdomain of one (ends with a dot followed by the domain).
Stated for comparison with `isValidMeetingUrl`. -/
def onAllowList (hostname : String) : Bool :=
  validDomains.any (fun domain =>
    hostname == domain || hostEndsWith ('.' :: domain.toList) hostname.toList)

/-- Test fixture: a transcript segment with the given speaker index, text and
time span, as the recognition path would produce it. -/
def sampleSegment (si : Int) (txt : String) (t0 t1 : Int) : TranscriptSegment :=
  { speaker := "Speaker " ++ toString si, speakerIndex := si, text := txt
    startTime := t0, endTime := t1, confidence := 0, words := none }

/-- Sum of `totalTimeSpoken` over the participant map's values. -/
def spokenSum (ps : List (String × ParticipantData)) : Int :=
  (ps.map (fun kp => kp.2.totalTimeSpoken)).sum

/-- Sum of `endTime - startTime` over a segment list. -/
def transSum (l : List TranscriptSegment) : Int :=
  (l.map (fun g => g.endTime - g.startTime)).sum

/-- Apply a sequence of `addTranscriptSegment` calls, each with its own clock
reading, in arrival order. -/
def applyAll (inputs : List (Int × TranscriptSegment)) (s : AnalyticsState) : AnalyticsState :=
  inputs.foldl (fun st a => addTranscriptSegment a.1 a.2 st) s

/-- Fixture for the merge-direction scenario: an utterance of speaker 1
starting at 0 ms. -/
def segEarly : TranscriptSegment := sampleSegment 1 "first utterance" 0 400

/-- Fixture: an utterance of speaker 1 starting at 1500 ms, far enough from
`segEarly` to occupy its own timeline slot. -/
def segLate : TranscriptSegment := sampleSegment 1 "second utterance" 1500 1900

/-- Fixture: a revision for speaker 1 starting at 700 ms, within 1000 ms of
both `segEarly` and `segLate`. -/
def segRevision : TranscriptSegment := sampleSegment 1 "revised utterance" 700 1200

/-- Fixture for the 500 ms / 1500 ms merge examples: speaker 1 at 0 ms. -/
def segM0 : TranscriptSegment := sampleSegment 1 "hello" 0 2000

/-- Fixture: speaker 1 at 500 ms, within the merge window of `segM0`. -/
def segM500 : TranscriptSegment := sampleSegment 1 "hello there" 500 2400

/-- Fixture: speaker 1 at 1500 ms, outside the merge window of `segM0`. -/
def segM1500 : TranscriptSegment := sampleSegment 1 "and now later" 1500 3000

/-- Fixture for the double-count scenario of the spec (§8): segment A. -/
def segHello : TranscriptSegment := sampleSegment 0 "Hello everyone" 0 2000

/-- Fixture: the revised segment A' superseding `segHello` in its slot. -/
def segHelloRev : TranscriptSegment := sampleSegment 0 "Hello everyone welcome" 0 2500

/-- Fixture: the pipeline state right after `startSession`, before any
transcript traffic. -/
def pipeStart : PipelineState :=
  { transcript := [], analytics := startSession 0 "session_1" "https://meet.google.com/abc" initState }

/-- Fixture: a session that saw one segment and was then finalized at t=100. -/
def sBase : AnalyticsState := addTranscriptSegment 5 segHello (startSession 0 "s1" "u" initState)

/-- Fixture: `sBase` finalized once at t=100. -/
def endedOnce : AnalyticsState := endSession 100 sBase

/-- Fixture: `endedOnce` finalized a second time at t=200. -/
def endedTwice : AnalyticsState := endSession 200 endedOnce

/-- Fixture: export options requesting the spreadsheet format. -/
def optsXlsx : AnalyticsExportOptions :=
  { format := ExportFormat.xlsx, includeTranscript := true
    includeSentiment := true, includeWordTiming := false }

/-- Fixture: the default export options of `exportData` (json, transcript and
sentiment included, no word timing). -/
def optsJson : AnalyticsExportOptions :=
  { format := ExportFormat.json, includeTranscript := true
    includeSentiment := true, includeWordTiming := false }

/-- Fixture: a segment whose text carries a doubled inner space. -/
def segSpaced : TranscriptSegment := sampleSegment 0 "hello  world" 0 1000

/-- Fixture: the pipeline state after segment A and its revision A' have both
flowed through `handleTranscriptUpdate` on a live session. -/
def doubleCountState : PipelineState :=
  handleTranscriptUpdate 1 segHelloRev (handleTranscriptUpdate 0 segHello pipeStart)

/-- Fixture: a fresh service that has seen one segment with irregular
whitespace. -/
def spacedState : AnalyticsState := addTranscriptSegment 0 segSpaced initState

/-- Writing a key makes it readable. -/
theorem alFind_alSet_self {α β : Type} [DecidableEq α] (k : α) (v : β)
    (ps : List (α × β)) : alFind k (alSet k v ps) = some v := by
  induction ps with
  | nil => simp [alFind, alSet]
  | cons kp rest ih =>
    by_cases h : kp.1 = k
    · simp [alFind, alSet, h]
    · simp [alFind, alSet, h, ih]

/-- On an absent key, `Map.set` appends. -/
theorem alSet_of_absent {α β : Type} [DecidableEq α] (k : α) (v : β)
    (ps : List (α × β)) (h : alFind k ps = none) : alSet k v ps = ps ++ [(k, v)] := by
  induction ps with
  | nil => simp [alSet]
  | cons kp rest ih =>
    by_cases hk : kp.1 = k
    · simp [alFind, hk] at h
    · simp [alFind, hk] at h
      simp [alSet, hk, ih h]

/-- Sum `spokenSum` distributes over append. -/
theorem spokenSum_append (ps qs : List (String × ParticipantData)) :
    spokenSum (ps ++ qs) = spokenSum ps + spokenSum qs := by
  simp [spokenSum]

/-- Overwriting a present key shifts `spokenSum` by the difference of the
old and new `totalTimeSpoken`. -/
theorem spokenSum_alSet_of_found (k : String) (v p : ParticipantData)
    (ps : List (String × ParticipantData)) (h : alFind k ps = some p) :
    spokenSum (alSet k v ps) = spokenSum ps - p.totalTimeSpoken + v.totalTimeSpoken := by
  induction ps with
  | nil => simp [alFind] at h
  | cons kp rest ih =>
    by_cases hk : kp.1 = k
    · simp [alFind, hk] at h
      subst h
      simp [alSet, hk, spokenSum]
      ring
    · simp [alFind, hk] at h
      simp [alSet, hk, spokenSum] at ih ⊢
      rw [ih h]
      ring

/-- Sum `transSum` distributes over append. -/
theorem transSum_append (l₁ l₂ : List TranscriptSegment) :
    transSum (l₁ ++ l₂) = transSum l₁ + transSum l₂ := by
  simp [transSum]

/-- Function `addParticipant` never touches the live session. -/
theorem addParticipant_currentSession (now : Int) (userId userName : String)
    (si : Option Int) (s : AnalyticsState) :
    (addParticipant now userId userName si s).currentSession = s.currentSession := by
  unfold addParticipant
  split
  · rfl
  · cases si <;> rfl

/-- When the key is absent, `addParticipant` appends exactly the fresh record. -/
theorem addParticipant_participants_of_absent (now : Int) (userId userName : String)
    (si : Option Int) (s : AnalyticsState) (h : alFind userId s.participants = none) :
    (addParticipant now userId userName si s).participants =
      s.participants ++ [(userId, freshParticipant now userId userName)] := by
  unfold addParticipant
  rw [h]
  simp only [Option.isSome_none, Bool.false_eq_true, if_false]
  cases si <;> simp [alSet_of_absent _ _ _ h]

/-- Closing a participant never changes the speaking-time tally. -/
theorem closeParticipant_spoken (t : Int) (p : ParticipantData) :
    (closeParticipant t p).totalTimeSpoken = p.totalTimeSpoken := by
  unfold closeParticipant
  cases p.leaveTimestamp <;> rfl

/-- Closing an already-closed participant is the identity. -/
theorem closeParticipant_idem (t₁ t₂ : Int) (p : ParticipantData) :
    closeParticipant t₂ (closeParticipant t₁ p) = closeParticipant t₁ p := by
  unfold closeParticipant
  cases h : p.leaveTimestamp <;> simp [h]

/-- Closing every participant preserves `spokenSum`. -/
theorem spokenSum_close (t : Int) (ps : List (String × ParticipantData)) :
    spokenSum (ps.map (fun kp => (kp.1, closeParticipant t kp.2))) = spokenSum ps := by
  induction ps with
  | nil => rfl
  | cons kp rest ih => simp [spokenSum, closeParticipant_spoken] at ih ⊢; exact ih

/-- Looking up a key appended behind key-free entries finds it. -/
theorem alFind_append_of_absent {α β : Type} [DecidableEq α] (k : α) (v : β)
    (ps : List (α × β)) (h : alFind k ps = none) :
    alFind k (ps ++ [(k, v)]) = some v := by
  induction ps with
  | nil => simp [alFind]
  | cons kp rest ih =>
    by_cases hk : kp.1 = k
    · simp [alFind, hk] at h
    · simp [alFind, hk] at h ⊢
      exact ih h

/-- Overwriting a key that only occurs in the appended tail entry. -/
theorem alSet_append_of_absent {α β : Type} [DecidableEq α] (k : α) (v w : β)
    (ps : List (α × β)) (h : alFind k ps = none) :
    alSet k v (ps ++ [(k, w)]) = ps ++ [(k, v)] := by
  induction ps with
  | nil => simp [alSet]
  | cons kp rest ih =>
    by_cases hk : kp.1 = k
    · simp [alFind, hk] at h
    · simp [alFind, hk] at h
      simp [alSet, hk, ih h]

/-- What `addTranscriptSegment` does to the participant map: update the
resolved participant in place, or append a fresh record already carrying the
segment. -/
theorem addTranscriptSegment_participants (now : Int) (seg : TranscriptSegment)
    (s : AnalyticsState) :
    (addTranscriptSegment now seg s).participants =
      (match alFind (resolveUserId s seg.speakerIndex) s.participants with
       | some p =>
         alSet (resolveUserId s seg.speakerIndex)
           { p with transcript := p.transcript ++ [seg],
                    totalTimeSpoken := p.totalTimeSpoken + (seg.endTime - seg.startTime) }
           s.participants
       | none =>
         s.participants ++ [(resolveUserId s seg.speakerIndex,
           { freshParticipant now (resolveUserId s seg.speakerIndex) seg.speaker with
               transcript := [seg], totalTimeSpoken := seg.endTime - seg.startTime })]) := by
  unfold addTranscriptSegment
  cases hfind : alFind (resolveUserId s seg.speakerIndex) s.participants with
  | some p =>
    simp only [hfind, Option.isSome_some, if_true, List.nil_append]
    cases hsess : s.currentSession <;> simp [hsess]
  | none =>
    simp only [hfind, Option.isSome_none, Bool.false_eq_true, if_false]
    have hpart := addParticipant_participants_of_absent now
      (resolveUserId s seg.speakerIndex) seg.speaker (some seg.speakerIndex) s hfind
    rw [hpart, alFind_append_of_absent _ _ _ hfind]
    simp only [alSet_append_of_absent _ _ _ _ hfind]
    have : (freshParticipant now (resolveUserId s seg.speakerIndex) seg.speaker).transcript = [] := rfl
    cases hsess : (addParticipant now (resolveUserId s seg.speakerIndex) seg.speaker
        (some seg.speakerIndex) s).currentSession <;>
      simp [freshParticipant]

/-- Function `addTranscriptSegment` appends the segment to the live session's
transcript and does nothing to an absent session. -/
theorem addTranscriptSegment_currentSession (now : Int) (seg : TranscriptSegment)
    (s : AnalyticsState) :
    (addTranscriptSegment now seg s).currentSession =
      s.currentSession.map
        (fun sess => { sess with totalTranscript := sess.totalTranscript ++ [seg] }) := by
  unfold addTranscriptSegment
  cases hfind : alFind (resolveUserId s seg.speakerIndex) s.participants with
  | some p =>
    simp only [hfind, Option.isSome_some, if_true]
    cases hsess : s.currentSession <;> simp [hsess]
  | none =>
    simp only [hfind, Option.isSome_none, Bool.false_eq_true, if_false]
    have hsess := addParticipant_currentSession now
      (resolveUserId s seg.speakerIndex) seg.speaker (some seg.speakerIndex) s
    cases hfind2 : alFind (resolveUserId s seg.speakerIndex)
        (addParticipant now (resolveUserId s seg.speakerIndex) seg.speaker
          (some seg.speakerIndex) s).participants <;>
      cases hcur : s.currentSession <;>
        simp_all

/-- Function `addTranscriptSegment` raises `spokenSum` by exactly the new segment's
duration. -/
theorem addTranscriptSegment_spokenSum (now : Int) (seg : TranscriptSegment)
    (s : AnalyticsState) :
    spokenSum (addTranscriptSegment now seg s).participants =
      spokenSum s.participants + (seg.endTime - seg.startTime) := by
  rw [addTranscriptSegment_participants]
  cases hfind : alFind (resolveUserId s seg.speakerIndex) s.participants with
  | some p =>
    rw [spokenSum_alSet_of_found _ _ _ _ hfind]
    ring
  | none =>
    rw [spokenSum_append]
    simp [spokenSum, freshParticipant]

/-- The resolved participant after `addTranscriptSegment`: the prior record
(or a fresh one) with the segment appended and its duration added. -/
theorem addTranscriptSegment_find (now : Int) (seg : TranscriptSegment)
    (s : AnalyticsState) :
    alFind (resolveUserId s seg.speakerIndex) (addTranscriptSegment now seg s).participants =
      (match alFind (resolveUserId s seg.speakerIndex) s.participants with
       | some p =>
         some { p with transcript := p.transcript ++ [seg],
                       totalTimeSpoken := p.totalTimeSpoken + (seg.endTime - seg.startTime) }
       | none =>
         some { freshParticipant now (resolveUserId s seg.speakerIndex) seg.speaker with
                  transcript := [seg], totalTimeSpoken := seg.endTime - seg.startTime }) := by
  rw [addTranscriptSegment_participants]
  cases hfind : alFind (resolveUserId s seg.speakerIndex) s.participants with
  | some p => exact alFind_alSet_self _ _ _
  | none => exact alFind_append_of_absent _ _ _ hfind

/-- Running any sequence of `addTranscriptSegment` calls preserves the
balance between accumulated speaking time and session transcript duration. -/
theorem applyAll_conservation (inputs : List (Int × TranscriptSegment)) (s : AnalyticsState)
    (sess : MeetingSession) (h : s.currentSession = some sess)
    (hsum : spokenSum s.participants = transSum sess.totalTranscript) :
    ∃ sess', (applyAll inputs s).currentSession = some sess' ∧
      spokenSum (applyAll inputs s).participants = transSum sess'.totalTranscript := by
  induction inputs generalizing s sess with
  | nil => exact ⟨sess, h, hsum⟩
  | cons a rest ih =>
    simp only [applyAll, List.foldl_cons] at *
    have h1 : (addTranscriptSegment a.1 a.2 s).currentSession =
        some { sess with totalTranscript := sess.totalTranscript ++ [a.2] } := by
      rw [addTranscriptSegment_currentSession, h]; rfl
    have h2 : spokenSum (addTranscriptSegment a.1 a.2 s).participants =
        transSum (sess.totalTranscript ++ [a.2]) := by
      rw [addTranscriptSegment_spokenSum, hsum, transSum_append]
      simp [transSum]
    exact ih _ _ h1 h2

/-- Finalizing a session preserves the conservation balance and exposes it on
the session's own participant snapshot. -/
theorem endSession_conservation (t : Int) (s : AnalyticsState) (sess : MeetingSession)
    (h : s.currentSession = some sess)
    (hsum : spokenSum s.participants = transSum sess.totalTranscript) :
    ∃ sess', (endSession t s).currentSession = some sess' ∧
      (sess'.participants.map (fun p => p.totalTimeSpoken)).sum = transSum sess'.totalTranscript := by
  unfold endSession
  rw [h]
  refine ⟨_, rfl, ?_⟩
  have hmm : ((s.participants.map (fun kp => (kp.1, closeParticipant t kp.2))).map
      (fun kp => kp.2) |>.map (fun p => p.totalTimeSpoken)).sum =
      spokenSum s.participants := by
    induction s.participants with
    | nil => rfl
    | cons kp rest ih =>
      simp only [List.map_cons, List.sum_cons, spokenSum, closeParticipant_spoken] at ih ⊢
      rw [ih]
  rw [hmm, hsum]

/-- A list on which the predicate never holds has no first match. -/
theorem findIndex_eq_none {α : Type} (p : α → Bool) (l : List α)
    (h : ∀ a ∈ l, p a = false) : findIndex p l = none := by
  induction l with
  | nil => rfl
  | cons a as ih =>
    have ha := h a (List.mem_cons_self a as)
    simp [findIndex, ha, ih (fun b hb => h b (List.mem_cons_of_mem a hb))]

/-- Appending a matching element behind an unmatched list puts the first
match exactly at the old length. -/
theorem findIndex_append_of_none {α : Type} (p : α → Bool) (l : List α) (x : α)
    (h : findIndex p l = none) (hx : p x = true) :
    findIndex p (l ++ [x]) = some l.length := by
  induction l with
  | nil => simp [findIndex, hx]
  | cons a as ih =>
    by_cases ha : p a
    · simp [findIndex, ha] at h
    · rw [List.cons_append]
      simp only [findIndex, ha, Bool.false_eq_true, if_false] at h ⊢
      rw [Option.map_eq_none'] at h
      rw [ih h]
      rfl

/-- Replacing the element at the first match with another matching value
keeps the first-match position. -/
theorem findIndex_set_self {α : Type} (p : α → Bool) (l : List α) (i : Nat) (x : α)
    (h : findIndex p l = some i) (hx : p x = true) :
    findIndex p (l.set i x) = some i := by
  induction l generalizing i with
  | nil => simp [findIndex] at h
  | cons a as ih =>
    by_cases ha : p a
    · simp [findIndex, ha] at h
      subst h
      simp [findIndex, hx]
    · simp only [findIndex, ha, Bool.false_eq_true, if_false] at h
      rw [Option.map_eq_some'] at h
      obtain ⟨j, hj, hji⟩ := h
      subst hji
      simp only [List.set, findIndex, ha, Bool.false_eq_true, if_false, ih j hj]
      rfl

/-- Establishes the first match from an explicit earliest-match certificate. -/
theorem findIndex_eq_some_of {α : Type} (p : α → Bool) (l : List α) (i : Nat)
    (hi : i < l.length) (hp : p (l.get ⟨i, hi⟩) = true)
    (hmin : ∀ j (hj : j < l.length), j < i → p (l.get ⟨j, hj⟩) = false) :
    findIndex p l = some i := by
  induction l generalizing i with
  | nil => simp at hi
  | cons a as ih =>
    cases i with
    | zero => simp_all [findIndex]
    | succ j =>
      have ha : p a = false :=
        hmin 0 (Nat.succ_pos _) (Nat.succ_pos _)
      have hij : j < as.length := Nat.lt_of_succ_lt_succ hi
      have := ih j hij hp (fun k hk hkj =>
        hmin (k + 1) (Nat.succ_lt_succ hk) (Nat.succ_lt_succ hkj))
      simp [findIndex, ha, this]

/-- Setting at the length of a one-longer list rewrites the appended entry. -/
theorem set_append_length {α : Type} (l : List α) (a b : α) :
    (l ++ [a]).set l.length b = l ++ [b] := by
  induction l with
  | nil => rfl
  | cons x xs ih => simp [List.set, ih]

/-- Every segment matches its own timeline slot. -/
theorem matchesSlot_self (seg : TranscriptSegment) : matchesSlot seg seg = true := by
  simp [matchesSlot]

/-- Any list is a prefix of itself, in the boolean sense. -/
theorem isPrefixOf_self (l : List Char) : l.isPrefixOf l = true := by
  induction l with
  | nil => rfl
  | cons c cs ih => simp [List.isPrefixOf, ih]

/-- Any character list contains itself. -/
theorem charsContains_self (l : List Char) : charsContains l l = true := by
  cases l with
  | nil => rfl
  | cons c cs => simp [charsContains, isPrefixOf_self]

/-- Containment is stable under extending the haystack on the left. -/
theorem charsContains_cons (needle rest : List Char) (c : Char)
    (h : charsContains needle rest = true) : charsContains needle (c :: rest) = true := by
  simp [charsContains, h]

/-- A haystack ending in `c :: n` contains `n`. -/
theorem charsContains_of_endsWith (n : List Char) (c : Char) (h : List Char)
    (hh : hostEndsWith (c :: n) h = true) : charsContains n h = true := by
  induction h with
  | nil => simp [hostEndsWith] at hh
  | cons d rest ih =>
    simp only [hostEndsWith, Bool.or_eq_true] at hh
    cases hh with
    | inl heq =>
      have heq' : c :: n = d :: rest := eq_of_beq heq
      injection heq' with h1 h2
      subst h2
      exact charsContains_cons _ _ _ (charsContains_self n)
    | inr htail => exact charsContains_cons _ _ _ (ih htail)

/-- C2 (confirmed).  For any finalized session — `startSession` on a fresh
service, any sequence of `addTranscriptSegment` calls, then `endSession` —
the sum over all participants of `totalTimeSpoken` equals the sum of
`endTime - startTime` over all segments of the session's `totalTranscript`. -/
theorem session_speaking_time_conserved (sessionId meetingUrl : String) (t0 t1 : Int)
    (inputs : List (Int × TranscriptSegment)) :
    ∃ sess,
      (endSession t1 (applyAll inputs (startSession t0 sessionId meetingUrl initState))).currentSession
        = some sess ∧
      (sess.participants.map (fun p => p.totalTimeSpoken)).sum = transSum sess.totalTranscript := by
  obtain ⟨sess', h1, h2⟩ := applyAll_conservation inputs
    (startSession t0 sessionId meetingUrl initState)
    { id := sessionId, url := meetingUrl, startTime := t0, endTime := none
      participants := [], totalTranscript := [] } rfl rfl
  exact endSession_conservation t1 _ sess' h1 h2

/-- C10 (confirmed).  A segment delivered while no session is live still
mutates participant state — it is appended to the resolved participant's
transcript (creating the record if unseen) and its duration added to
`totalTimeSpoken` — while `currentSession` stays `none`, and any session
started afterwards begins with an empty `totalTranscript`, so the segment
never appears in any session's transcript. -/
theorem segment_without_session_updates_participant_only (now t : Int) (sid u : String)
    (seg : TranscriptSegment) (s : AnalyticsState) (h : s.currentSession = none) :
    (addTranscriptSegment now seg s).currentSession = none ∧
    (alFind (resolveUserId s seg.speakerIndex) (addTranscriptSegment now seg s).participants).map
        (fun p => p.transcript) =
      some ((((alFind (resolveUserId s seg.speakerIndex) s.participants).map
        (fun p => p.transcript)).getD []) ++ [seg]) ∧
    (alFind (resolveUserId s seg.speakerIndex) (addTranscriptSegment now seg s).participants).map
        (fun p => p.totalTimeSpoken) =
      some ((((alFind (resolveUserId s seg.speakerIndex) s.participants).map
        (fun p => p.totalTimeSpoken)).getD 0) + (seg.endTime - seg.startTime)) ∧
    ((startSession t sid u (addTranscriptSegment now seg s)).currentSession).map
        (fun sess => sess.totalTranscript) = some [] := by
  refine ⟨?_, ?_, ?_, rfl⟩
  · rw [addTranscriptSegment_currentSession, h]; rfl
  · rw [addTranscriptSegment_find]
    cases alFind (resolveUserId s seg.speakerIndex) s.participants <;>
      simp [freshParticipant]
  · rw [addTranscriptSegment_find]
    cases alFind (resolveUserId s seg.speakerIndex) s.participants <;>
      simp [freshParticipant]

/-- Witness for C10 at a concrete input: a fresh service has no session, and
the segment still lands in the participant map while no session transcript
ever sees it. -/
theorem segment_without_session_updates_participant_only_witness :
    initState.currentSession = none ∧
    (addTranscriptSegment 0 segHello initState).currentSession = none ∧
    ((startSession 7 "s2" "u2" (addTranscriptSegment 0 segHello initState)).currentSession).map
      (fun sess => sess.totalTranscript) = some [] := by
  have h := segment_without_session_updates_participant_only 0 7 "s2" "u2" segHello initState rfl
  exact ⟨rfl, h.1, h.2.2.2⟩

/-- C4 (confirmed).  Applying the same segment to the reconciler twice yields
the transcript obtained after the first application: the second application
overwrites a slot with identical content, never appends a duplicate. -/
theorem reconcile_idempotent (prev : List TranscriptSegment) (seg : TranscriptSegment) :
    reconcileTranscript (reconcileTranscript prev seg) seg = reconcileTranscript prev seg := by
  have hself := matchesSlot_self seg
  cases h : findIndex (fun s0 => matchesSlot s0 seg) prev with
  | none =>
    have h1 : reconcileTranscript prev seg = prev ++ [seg] := by
      unfold reconcileTranscript; rw [h]
    rw [h1]
    unfold reconcileTranscript
    rw [findIndex_append_of_none _ _ _ h hself]
    simp only [set_append_length]
  | some i =>
    have h1 : reconcileTranscript prev seg = prev.set i seg := by
      unfold reconcileTranscript; rw [h]
    rw [h1]
    unfold reconcileTranscript
    rw [findIndex_set_self _ _ _ _ h hself]
    simp only [List.set_set]

/-- Counterexample to C3: with two slots of speaker 1 both within 1000 ms of
an incoming revision, the code replaces the earliest (forward `findIndex`),
not the most recent as a backward search would. -/
theorem reconcile_not_backward :
    reconcileTranscript [segEarly, segLate] segRevision = [segRevision, segLate] ∧
    reconcileBackward [segEarly, segLate] segRevision = [segEarly, segRevision] ∧
    reconcileTranscript [segEarly, segLate] segRevision ≠
      reconcileBackward [segEarly, segLate] segRevision := by decide

/-- C3 (corrected).  The reconciler searches forward: it replaces the
earliest existing segment with the same speaker index whose start time lies
strictly within 1000 ms of the incoming one, and appends when no segment
matches; two events for speaker 1 with start times 500 ms apart collapse to
one segment holding the later content, and 1500 ms apart they occupy two
segments. -/
theorem reconcile_replaces_earliest_match (prev : List TranscriptSegment)
    (seg : TranscriptSegment) :
    ((∀ g ∈ prev, matchesSlot g seg = false) →
      reconcileTranscript prev seg = prev ++ [seg]) ∧
    (∀ i (hi : i < prev.length), matchesSlot (prev.get ⟨i, hi⟩) seg = true →
      (∀ j (hj : j < prev.length), j < i → matchesSlot (prev.get ⟨j, hj⟩) seg = false) →
      reconcileTranscript prev seg = prev.set i seg) ∧
    reconcileTranscript (reconcileTranscript [] segM0) segM500 = [segM500] ∧
    reconcileTranscript (reconcileTranscript [] segM0) segM1500 = [segM0, segM1500] := by
  refine ⟨?_, ?_, by decide, by decide⟩
  · intro hall
    unfold reconcileTranscript
    rw [findIndex_eq_none _ _ hall]
  · intro i hi hp hmin
    unfold reconcileTranscript
    rw [findIndex_eq_some_of _ _ i hi hp hmin]

/-- Witness for C3's amended statement at concrete inputs: a non-matching
segment is appended, and a matching one replaces the earliest slot. -/
theorem reconcile_replaces_earliest_match_witness :
    reconcileTranscript [segM1500] segM0 = [segM1500, segM0] ∧
    reconcileTranscript [segM0] segM500 = [segM0].set 0 segM500 := by
  constructor
  · exact (reconcile_replaces_earliest_match [segM1500] segM0).1 (by decide)
  · exact (reconcile_replaces_earliest_match [segM0] segM500).2.1 0 (by decide) (by decide)
      (fun j hj hji => absurd hji (Nat.not_lt_zero j))

/-- C1 fails on the code: after segment A and its in-slot revision A' flow
through `handleTranscriptUpdate`, the reconciled transcript holds only A'
(2500 ms for speaker 0), but the analytics participant keeps both A and A'
and `totalTimeSpoken` is 4500 — the superseded revision's duration is
double-counted, contradicting the required equality with the participant's
current (reconciled) segment list. -/
theorem revised_segment_double_counted :
    doubleCountState.transcript = [segHelloRev] ∧
    (alFind "unknown_0" doubleCountState.analytics.participants).map (fun p => p.transcript) =
      some [segHello, segHelloRev] ∧
    (alFind "unknown_0" doubleCountState.analytics.participants).map
      (fun p => p.totalTimeSpoken) = some 4500 ∧
    transSum (doubleCountState.transcript.filter (fun g => g.speakerIndex == 0)) = 2500 ∧
    (alFind "unknown_0" doubleCountState.analytics.participants).map
      (fun p => p.totalTimeSpoken) ≠
      some (transSum (doubleCountState.transcript.filter (fun g => g.speakerIndex == 0))) := by
  decide

/-- Counterexample to C5: on the first abnormal close (code 1006, counter 0)
the code schedules the reconnect after `2000 * 0 = 0` ms, not ~2000 ms; and
once the retry budget is exhausted the close handler neither reconnects nor
delivers any error to the error sink. -/
theorem first_reconnect_is_immediate :
    (onWebSocketClose { isConnected := true, reconnectAttempts := 0 } 1006).reconnectDelayMs
      = some 0 ∧
    some 0 ≠ some (2000 : Nat) ∧
    (onWebSocketClose { isConnected := false, reconnectAttempts := 3 } 1006).reconnectDelayMs
      = none ∧
    (onWebSocketClose { isConnected := false, reconnectAttempts := 3 } 1006).surfacedError
      = none := by decide

/-- C5 (corrected).  On an abnormal close below the retry budget the client
reconnects after `2000 * attempts` ms where `attempts` is the pre-increment
counter — so the observed delays are 0 ms, 2000 ms, 4000 ms — the counter
resets to 0 on a successful open, and once the budget is exhausted no further
reconnect is attempted and nothing is surfaced through the error sink. -/
theorem reconnect_backoff_schedule (s : ConnState) (code : Int) :
    (code ≠ 1000 → s.reconnectAttempts < maxReconnectAttempts →
      onWebSocketClose s code =
        { state := { isConnected := false, reconnectAttempts := s.reconnectAttempts + 1 }
          reconnectDelayMs := some (2000 * s.reconnectAttempts)
          surfacedError := none }) ∧
    (maxReconnectAttempts ≤ s.reconnectAttempts →
      onWebSocketClose s code =
        { state := { isConnected := false, reconnectAttempts := s.reconnectAttempts }
          reconnectDelayMs := none
          surfacedError := none }) ∧
    (onWebSocketOpen s).reconnectAttempts = 0 ∧
    closeTrace { isConnected := true, reconnectAttempts := 0 } [1006, 1006, 1006, 1006] =
      ([some 0, some 2000, some 4000, none],
        { isConnected := false, reconnectAttempts := 3 }) := by
  refine ⟨?_, ?_, rfl, by decide⟩
  · intro hc hn
    unfold onWebSocketClose
    rw [if_pos ⟨hc, hn⟩]
  · intro hn
    unfold onWebSocketClose
    rw [if_neg (fun hcontra => absurd hcontra.2 (Nat.not_lt.mpr hn))]

/-- Witness for C5's amended statement: the second retry (counter 1) waits
2000 ms, and a close at counter 3 schedules nothing. -/
theorem reconnect_backoff_schedule_witness :
    onWebSocketClose { isConnected := true, reconnectAttempts := 1 } 1006 =
      { state := { isConnected := false, reconnectAttempts := 2 }
        reconnectDelayMs := some (2000 * 1)
        surfacedError := none } ∧
    onWebSocketClose { isConnected := false, reconnectAttempts := 3 } 1006 =
      { state := { isConnected := false, reconnectAttempts := 3 }
        reconnectDelayMs := none
        surfacedError := none } := by
  constructor
  · exact (reconnect_backoff_schedule ⟨true, 1⟩ 1006).1 (by decide) (by decide)
  · exact (reconnect_backoff_schedule ⟨false, 3⟩ 1006).2.1 (by decide)

/-- C6 (confirmed).  A spreadsheet-format export request always fails with
the "not implemented" error naming the format, and `downloadExport`
propagates the same failure before any blob, MIME type or filename is
produced; the model's export functions are pure readers of the aggregator
state, mirroring the source methods which never assign to it. -/
theorem xlsx_export_rejected (now : Int) (fn : String) (o : AnalyticsExportOptions)
    (s : AnalyticsState) (h : o.format = ExportFormat.xlsx) :
    exportData now o s =
      Except.error "XLSX export not implemented. Use json or csv format." ∧
    downloadExport now fn o s =
      Except.error "XLSX export not implemented. Use json or csv format." := by
  have he : exportData now o s =
      Except.error "XLSX export not implemented. Use json or csv format." := by
    simp only [exportData, h]
  refine ⟨he, ?_⟩
  simp only [downloadExport, he]

/-- Witness for C6 at a concrete input. -/
theorem xlsx_export_rejected_witness :
    exportData 5 optsXlsx initState =
      Except.error "XLSX export not implemented. Use json or csv format." ∧
    downloadExport 5 "meeting-x" optsXlsx initState =
      Except.error "XLSX export not implemented. Use json or csv format." :=
  xlsx_export_rejected 5 "meeting-x" optsXlsx initState rfl

/-- C7 fails on the code: for the text "hello  world" (doubled space) the
policy count — `countWords`, used by the tabular export — is 2, but the
session summary counts `split(' ').length = 3` because it splits on single
spaces and counts empty tokens; the two reporting paths disagree on
irregular whitespace. -/
theorem word_count_paths_disagree :
    countWords "hello  world" = 2 ∧
    (getSessionSummary 0 spacedState).totalWords = 3 ∧
    (prepareExportData 0 optsJson spacedState).participants.map csvRowWords = [2] ∧
    (getSessionSummary 0 spacedState).totalWords ≠
      ((prepareExportData 0 optsJson spacedState).participants.map csvRowWords).sum := by
  decide

/-- Counterexample to C8: finalizing an already-finalized session again is
not a no-op — the session's `endTime` is overwritten with the later clock
reading. -/
theorem second_endSession_not_noop :
    endedTwice ≠ endedOnce ∧
    (endedOnce.currentSession).map (fun sess => sess.endTime) = some (some 100) ∧
    (endedTwice.currentSession).map (fun sess => sess.endTime) = some (some 200) := by decide

/-- C8 (corrected).  A second `endSession` raises no error and leaves every
participant record — `leaveTimestamp`, `totalTimeAttended` and the rest —
and the speaker mapping unchanged; the only change is that the session's
`endTime` is overwritten with the second call's clock reading, so the call
is a no-op exactly when both calls observe the same clock value. -/
theorem endSession_second_call (t1 t2 : Int) (s : AnalyticsState) :
    (endSession t2 (endSession t1 s)).participants = (endSession t1 s).participants ∧
    (endSession t2 (endSession t1 s)).speakerMapping = (endSession t1 s).speakerMapping ∧
    (∀ sess1, (endSession t1 s).currentSession = some sess1 →
      (endSession t2 (endSession t1 s)).currentSession =
        some { sess1 with endTime := some t2 }) ∧
    (t1 = t2 → endSession t2 (endSession t1 s) = endSession t1 s) := by
  have hclosed : ∀ ps : List (String × ParticipantData),
      (ps.map (fun kp => (kp.1, closeParticipant t1 kp.2))).map
        (fun kp => (kp.1, closeParticipant t2 kp.2)) =
      ps.map (fun kp => (kp.1, closeParticipant t1 kp.2)) := by
    intro ps
    induction ps with
    | nil => rfl
    | cons kp rest ih =>
      simp only [List.map_cons, closeParticipant_idem]
      rw [ih]
  cases hc : s.currentSession with
  | none =>
    have h1 : endSession t1 s = s := by unfold endSession; rw [hc]
    have h2 : endSession t2 s = s := by unfold endSession; rw [hc]
    rw [h1, h2]
    refine ⟨rfl, rfl, ?_, fun _ => rfl⟩
    intro sess1 hs1
    rw [hc] at hs1
    cases hs1
  | some sess =>
    simp only [endSession, hc]
    refine ⟨hclosed s.participants, ?_, ?_, ?_⟩
    · trivial
    · intro sess1 hs1
      injection hs1 with hs1
      subst hs1
      simp [hclosed s.participants]
    · intro ht
      subst ht
      simp [hclosed s.participants]

/-- Witness for C8's amended statement: the concrete double-finalized session
keeps its participants, and with equal clock readings the second call is the
identity. -/
theorem endSession_second_call_witness :
    (endSession 200 (endSession 100 sBase)).participants =
      (endSession 100 sBase).participants ∧
    endSession 100 (endSession 100 sBase) = endSession 100 sBase := by
  refine ⟨(endSession_second_call 100 200 sBase).1, ?_⟩
  exact (endSession_second_call 100 100 sBase).2.2.2 rfl

/-- Counterexample to C9: the host `zoom.us.evil.example` is neither an
allow-listed provider domain nor a subdomain of one, yet the substring-based
validation accepts it and the join succeeds with a meeting window. -/
theorem spoofed_host_accepted :
    onAllowList "zoom.us.evil.example" = false ∧
    isValidMeetingUrl "zoom.us.evil.example" = true ∧
    joinMeeting "zoom.us.evil.example" 7 =
      { result := JoinOutcome.success 7, meetingWindowCreated := true } := by decide

/-- C9 (corrected).  The join handler validates before any window action —
every rejected host fails with no window created — and every host on the
allow-list (a provider domain or a subdomain of one) is accepted; but the
check is substring containment, so acceptance is broader than the
allow-list. -/
theorem allow_list_is_substring_match (hostname : String) (wid : Nat) :
    (isValidMeetingUrl hostname = false →
      joinMeeting hostname wid =
        { result := JoinOutcome.failure, meetingWindowCreated := false }) ∧
    (onAllowList hostname = true → isValidMeetingUrl hostname = true) := by
  constructor
  · intro h
    simp [joinMeeting, h]
  · intro h
    unfold onAllowList at h
    rw [List.any_eq_true] at h
    obtain ⟨d, hd, hor⟩ := h
    unfold isValidMeetingUrl
    rw [List.any_eq_true]
    refine ⟨d, hd, ?_⟩
    rw [Bool.or_eq_true] at hor
    cases hor with
    | inl heq =>
      have heq' : hostname = d := eq_of_beq heq
      rw [heq']
      exact charsContains_self d.toList
    | inr hends => exact charsContains_of_endsWith _ _ _ hends

/-- Witness for C9's amended statement: a host off the allow-list is refused
with no window, and a genuine subdomain of a provider domain is accepted. -/
theorem allow_list_is_substring_match_witness :
    joinMeeting "example.com" 3 =
      { result := JoinOutcome.failure, meetingWindowCreated := false } ∧
    isValidMeetingUrl "sub.zoom.us" = true :=
  ⟨(allow_list_is_substring_match "example.com" 3).1 (by decide),
   (allow_list_is_substring_match "sub.zoom.us" 3).2 (by decide)⟩

end MeetingBot
